import Mathlib

/-!
Verification of the distributed-training orchestration logic of
`sagemaker_tensorflow_container/training.py` (SageMaker TensorFlow training
toolkit), as a shallow embedding in Lean 4.

The embedding mirrors the Python source:
* `build_tf_config_for_ps` embeds `_build_tf_config_for_ps`,
* `build_tf_config_for_mwms` embeds `_build_tf_config_for_mwms`,
* `wait_until_master_is_down` embeds `_wait_until_master_is_down`, with the
  liveness probe (curl against `master:2222`) abstracted as a `Nat → Bool`
  sequence of probe results and the loop given explicit fuel,
* `train` embeds `train`, with the launched side effects (`_run_ps`,
  `_run_worker`, `_wait_until_master_is_down`, `entry_point.run`) recorded as
  an event trace instead of being performed,
* `log_model_missing_warning` embeds `_log_model_missing_warning`, with the
  `os.walk` output modelled as an explicit list of directory entries and the
  `logger.warn` calls recorded as a list of warnings.

Python exceptions (`ValueError` from `raise` or `list.index`, and the
`UnboundLocalError` of reading an unassigned local) are modelled with
`Except`.
-/

namespace SageMakerTF

/-- The `task` descriptor of a TF_CONFIG: `{"type": ..., "index": ...}`. -/
structure Task where
  type : String
  index : Nat
deriving DecidableEq, Repr

/-- The `cluster` dictionary of a TF_CONFIG.  Each role key is optional:
`none` means the key is absent from the dictionary. -/
structure Cluster where
  master : Option (List String)
  ps : Option (List String)
  worker : Option (List String)
deriving DecidableEq, Repr

/-- A whole TF_CONFIG value:
`{"cluster": ..., "environment": "cloud", "task": ...}`. -/
structure TfConfig where
  cluster : Cluster
  environment : String
  task : Task
deriving DecidableEq, Repr

/-- The list comprehension `["{}:{}".format(host, port) for host in hosts]` —
the local helper `host_addresses` of both builders. -/
def host_addresses (hosts : List String) (port : String) : List String :=
  hosts.map (fun host => host ++ ":" ++ port)

/-- Embeds `_is_host_master(hosts, current_host)`: `current_host == hosts[0]`.
`hosts[0]` on an empty list raises `IndexError` in Python; the model
compares against `hosts.head?`, which differs only for `hosts = []`
(never reached by the orchestrator, which guards with `len(hosts) > 1`). -/
def is_host_master (hosts : List String) (current_host : String) : Bool :=
  hosts.head? == some current_host

/-- Python `list.index(a)`: index of the first occurrence of `a`, or a
`ValueError` when `a` is not in the list. -/
def listIndex (l : List String) (a : String) : Except String Nat :=
  match l with
  | [] => Except.error "x not in list"
  | x :: xs =>
    if x == a then Except.ok 0
    else (listIndex xs a).map (· + 1)

/-- Embeds `_build_tf_config_for_ps(hosts, current_host, ps_task)`.

`masters = hosts[:1]`, `workers = hosts[1:]`, `ps = hosts if len(hosts) > 1
else None`; the cluster gets `"master"` always, `"ps"` when `ps` is set and
`"worker"` when `workers` is non-empty; the task is `ps/current index` when
`ps_task` (a `ValueError` when `ps is None`), else `master/0` for the first
host, else `worker/index among workers`. -/
def build_tf_config_for_ps (hosts : List String) (current_host : String)
    (ps_task : Bool) : Except String TfConfig :=
  let masters := hosts.take 1
  let workers := hosts.drop 1
  let ps : Option (List String) := if 1 < hosts.length then some hosts else none
  let baseCluster : Cluster :=
    { master := some (host_addresses masters "2222"), ps := none, worker := none }
  let clusterWithPs : Cluster :=
    match ps with
    | some psHosts => { baseCluster with ps := some (host_addresses psHosts "2223") }
    | none => baseCluster
  let cluster : Cluster :=
    if workers.isEmpty then clusterWithPs
    else { clusterWithPs with worker := some (host_addresses workers "2222") }
  let taskE : Except String Task :=
    if ps_task then
      match ps with
      | none =>
        Except.error "Cannot have a ps task if there are no parameter servers in the cluster"
      | some psHosts =>
        (listIndex psHosts current_host).map (fun i => { type := "ps", index := i })
    else if is_host_master hosts current_host then
      Except.ok { type := "master", index := 0 }
    else
      (listIndex workers current_host).map (fun i => { type := "worker", index := i })
  taskE.map (fun task => { cluster := cluster, environment := "cloud", task := task })

/-- Embeds `_build_tf_config_for_mwms(hosts, current_host)`: every host a worker on
port 8890, task `worker/index of current host in hosts`. -/
def build_tf_config_for_mwms (hosts : List String) (current_host : String) :
    Except String TfConfig :=
  let workers := hosts
  (listIndex workers current_host).map (fun i =>
    { cluster := { master := none, ps := none, worker := some (host_addresses workers "8890") },
      environment := "cloud",
      task := { type := "worker", index := i } })

/-! ## Shutdown coordinator: `_wait_until_master_is_down` -/

/-- One observable step of `_wait_until_master_is_down`: a probe of the
master (`curl master:2222`, recorded with its index and outcome) or a
`time.sleep(10)`. -/
inductive WaitEvent
  | probe (k : Nat) (up : Bool)
  | sleep10
deriving DecidableEq, Repr

/-- Embeds `_wait_until_master_is_down(master)`, with the `k`-th probe's outcome
given by `up k` and the unbounded `while True` loop bounded by `fuel`.
Returns the event trace if the loop returns within `fuel` iterations, and
`none` when the fuel runs out (modelling non-termination).  Each successful
probe is followed by `time.sleep(10)` and another iteration; the first
failed probe makes the function return. -/
def wait_until_master_is_down (up : Nat → Bool) : Nat → Nat → Option (List WaitEvent)
  | 0, _ => none
  | fuel + 1, k =>
    if up k then
      (wait_until_master_is_down up fuel (k + 1)).map
        (fun rest => WaitEvent.probe k true :: WaitEvent.sleep10 :: rest)
    else
      some [WaitEvent.probe k false]

/-- The trace `_wait_until_master_is_down` produces when probes
`k, k+1, …, k+N-1` succeed and probe `k+N` fails: `N` successful probes each
followed by a sleep, then the failing probe. -/
def waitTraceFrom : Nat → Nat → List WaitEvent
  | k, 0 => [WaitEvent.probe k false]
  | k, n + 1 => WaitEvent.probe k true :: WaitEvent.sleep10 :: waitTraceFrom (k + 1) n

/-- Recogniser for `time.sleep(10)` events. -/
def isSleepEvent : WaitEvent → Bool
  | WaitEvent.sleep10 => true
  | _ => false

/-! ## Model-directory advisory check: `_log_model_missing_warning` -/

/-- One `(dirpath, dirnames, filenames)` item of the `os.walk(model_dir)`
output, with `dirpath` kept as its list of path components (so that
`os.path.split(dirpath)[1]` is the last component) and `dirnames` dropped
(the source never reads it). -/
structure WalkEntry where
  dirpath : List String
  filenames : List String
deriving DecidableEq, Repr

/-- The direct parent directory of the files listed in the entry:
`os.path.split(dirpath)[1]`. -/
def direct_parent_dir (e : WalkEntry) : String :=
  e.dirpath.getLastD ""

/-- Python `str.isdigit(s)` (ASCII range): non-empty and all digits. -/
def str_isdigit (s : String) : Bool :=
  !s.isEmpty && s.toList.all Char.isDigit

/-- The test `"saved_model.pb" in f or "saved_model.pbtxt" in f` — Python
`in` on strings is substring containment. -/
def isSavedModelFile (f : String) : Bool :=
  decide ("saved_model.pb".toList <:+: f.toList) ||
    decide ("saved_model.pbtxt".toList <:+: f.toList)

/-- The warnings `_log_model_missing_warning` can emit via `logger.warn`. -/
inductive ModelWarning
  | notServable (dir : String)
  | noModelArtifact
  | wrongStructure
deriving DecidableEq, Repr

/-- Embeds `_log_model_missing_warning(model_dir)` over the modelled walk output:
during the walk, a `notServable` warning for every file containing
`saved_model.pb`/`saved_model.pbtxt` whose direct parent directory name is
not all digits; after the walk, `noModelArtifact` when no entry listed any
file, else `wrongStructure` when no saved-model file was seen.  The Python
function only logs and returns `None`; the model is total and returns the
ordered list of warnings. -/
def log_model_missing_warning (walk : List WalkEntry) : List ModelWarning :=
  let file_exists := walk.any (fun e => !e.filenames.isEmpty)
  let pb_file_exists := walk.any (fun e => e.filenames.any isSavedModelFile)
  let during := (walk.map (fun e =>
    e.filenames.filterMap (fun f =>
      if isSavedModelFile f then
        if !str_isdigit (direct_parent_dir e) then
          some (ModelWarning.notServable (direct_parent_dir e))
        else none
      else none))).flatten
  during ++
    (if !file_exists then [ModelWarning.noModelArtifact]
     else if !pb_file_exists then [ModelWarning.wrongStructure]
     else [])

/-! ## Orchestrator: `train` -/

/-- The fields of the `sagemaker_training` `Environment` object that `train`
reads, with the four framework-parameter lookups flattened to booleans
(Python truthiness of
`env.additional_framework_parameters.get(..., False)` and of
`.get("sagemaker_mpi_enabled")`). -/
structure Env where
  hosts : List String
  current_host : String
  distribution_hosts : List String
  current_instance_group : String
  distribution_instance_groups : List String
  parameter_server_flag : Bool
  mwms_flag : Bool
  dataparallel_flag : Bool
  mpi_flag : Bool
deriving DecidableEq, Repr

/-- The `runner_type` values `train` can pass to `entry_point.run`. -/
inductive RunnerType
  | process
  | mpi
  | smdataparallel
deriving DecidableEq, Repr

/-- The observable operations of `train`'s run phase:
`_run_ps(env, tf_config["cluster"])`, `_run_worker(env, cmd_args,
tf_config)`, `_wait_until_master_is_down(env.hosts[0])`, and the direct
`entry_point.run(..., runner_type=...)` of the non-parameter-server branch
(carrying the TF_CONFIG injected into `env_vars`, if any). -/
inductive Event
  | runPs (cluster : Cluster)
  | runWorker (tf_config : TfConfig)
  | waitUntilMasterIsDown (master : String)
  | runEntryPoint (rt : RunnerType) (tf_config_env : Option TfConfig)
deriving DecidableEq, Repr

/-- Errors `train` can raise: a propagated `ValueError` from a topology
builder, or the `UnboundLocalError` of reading `tf_config` when the setup
phase never assigned it. -/
inductive TrainError
  | valueError (msg : String)
  | unboundLocalError
deriving DecidableEq, Repr

/-- Embeds `train(env, cmd_args)`, returning the trace of launched operations.

Setup phase: when `env.current_instance_group` is in
`env.distribution_instance_groups`, `tf_config` is assigned from
`_build_tf_config_for_ps` if the parameter-server strategy is enabled
(flag set and `len(env.hosts) > 1`), else `env_vars["TF_CONFIG"]` is
assigned from `_build_tf_config_for_mwms` if the multi-worker-mirrored flag
is set.

Run phase: in the parameter-server branch Python evaluates
`tf_config["cluster"]` before calling `_run_ps`, so a missing `tf_config`
raises `UnboundLocalError` before any process is launched (trace empty);
otherwise the parameter server is launched, then the worker, then — only on
a non-master host — `_wait_until_master_is_down(env.hosts[0])`.  In the
other branch `entry_point.run` is called once, with the MPI /
data-parallel / default process runner type. -/
def train (env : Env) : Except TrainError (List Event) :=
  let parameter_server_enabled :=
    env.parameter_server_flag && decide (1 < env.hosts.length)
  let in_group := env.current_instance_group ∈ env.distribution_instance_groups
  let setup : Except TrainError (Option TfConfig × Option TfConfig) :=
    if in_group then
      if parameter_server_enabled then
        match build_tf_config_for_ps env.distribution_hosts env.current_host false with
        | Except.ok cfg => Except.ok (some cfg, none)
        | Except.error m => Except.error (TrainError.valueError m)
      else if env.mwms_flag then
        match build_tf_config_for_mwms env.distribution_hosts env.current_host with
        | Except.ok cfg => Except.ok (none, some cfg)
        | Except.error m => Except.error (TrainError.valueError m)
      else Except.ok (none, none)
    else Except.ok (none, none)
  match setup with
  | Except.error e => Except.error e
  | Except.ok (tfConfigVar, envVarTfConfig) =>
    if parameter_server_enabled then
      match tfConfigVar with
      | none => Except.error TrainError.unboundLocalError
      | some tf_config =>
        Except.ok ([Event.runPs tf_config.cluster, Event.runWorker tf_config] ++
          (if is_host_master env.hosts env.current_host then []
           else [Event.waitUntilMasterIsDown (env.hosts.headD "")]))
    else
      let runner_type :=
        if in_group then
          if env.mpi_flag then RunnerType.mpi
          else if env.dataparallel_flag then RunnerType.smdataparallel
          else RunnerType.process
        else RunnerType.process
      Except.ok [Event.runEntryPoint runner_type envVarTfConfig]

/-- Recogniser for `notServable` warnings. -/
def isNotServable : ModelWarning → Bool
  | ModelWarning.notServable _ => true
  | _ => false

/-- The `notServable` warnings `_log_model_missing_warning` emits while
walking one directory entry. -/
def entryWarnings (e : WalkEntry) : List ModelWarning :=
  e.filenames.filterMap (fun f =>
    if isSavedModelFile f then
      if !str_isdigit (direct_parent_dir e) then
        some (ModelWarning.notServable (direct_parent_dir e))
      else none
    else none)

/-- A two-host environment with both the parameter-server and the
multi-worker-mirrored flags set, observed from the second host. -/
def envPsMwms : Env :=
  { hosts := ["algo-1", "algo-2"], current_host := "algo-2",
    distribution_hosts := ["algo-1", "algo-2"],
    current_instance_group := "group-1", distribution_instance_groups := ["group-1"],
    parameter_server_flag := true, mwms_flag := true,
    dataparallel_flag := false, mpi_flag := false }

/-- Variant of `envPsMwms` with a current instance group outside the distribution
instance groups. -/
def envPsNoGroup : Env :=
  { envPsMwms with distribution_instance_groups := ["group-2"], mwms_flag := false }

/-- Variant of `envPsMwms` with only the MPI flag set. -/
def envMpi : Env :=
  { envPsMwms with parameter_server_flag := false, mwms_flag := false, mpi_flag := true }

/-- The TF_CONFIG `train envPsMwms` builds for its worker. -/
def cfgPsExample : TfConfig :=
  { cluster := { master := some ["algo-1:2222"], ps := some ["algo-1:2223", "algo-2:2223"],
                 worker := some ["algo-2:2222"] },
    environment := "cloud",
    task := { type := "worker", index := 0 } }

/-! ## Helper lemmas -/

/-- On a member, `listIndex` (Python `list.index`) succeeds and agrees with
`List.indexOf`, the index of the first occurrence. -/
theorem listIndex_eq_indexOf_of_mem {l : List String} {a : String} (h : a ∈ l) :
    listIndex l a = Except.ok (l.indexOf a) := by
  induction l with
  | nil => cases h
  | cons x xs ih =>
    rw [listIndex]
    by_cases hx : (x == a) = true
    · simp [hx, List.indexOf_cons]
    · have hmem : a ∈ xs := by
        rcases List.mem_cons.mp h with he | hm
        · exact absurd (by simp [he]) hx
        · exact hm
      simp [hx, ih hmem, List.indexOf_cons, Except.map]

/-- The element found at `List.indexOf` is the one looked up. -/
theorem getElem?_indexOf_of_mem {l : List String} {a : String} (h : a ∈ l) :
    l[l.indexOf a]? = some a := by
  have hlt : l.indexOf a < l.length := List.indexOf_lt_length.mpr h
  exact List.getElem?_eq_some.mpr ⟨hlt, List.getElem_indexOf hlt⟩

/-- Reassociation of `"{}:{}".format(host, port)` with a literal port. -/
theorem append_port_2222 (s : String) : s ++ ":" ++ "2222" = s ++ ":2222" := by
  rw [String.append_assoc]; rfl

/-- Reassociation of `"{}:{}".format(host, port)` with a literal port. -/
theorem append_port_2223 (s : String) : s ++ ":" ++ "2223" = s ++ ":2223" := by
  rw [String.append_assoc]; rfl

/-- Reassociation of `"{}:{}".format(host, port)` with a literal port. -/
theorem append_port_8890 (s : String) : s ++ ":" ++ "8890" = s ++ ":8890" := by
  rw [String.append_assoc]; rfl

/-! ## Claim theorems -/

/-- C1: for a host list of length ≥ 2 with distinct hosts and a current host
in the list, `_build_tf_config_for_ps` returns a cluster with
`master = [hosts[0] + ":2222"]`, `worker` = the remaining hosts in order
suffixed `":2222"`, and `ps` = all hosts in order suffixed `":2223"`; with
`ps_task=True` the task is `ps` at the current host's position in the host
list, with `ps_task=False` the first host gets `master/0` and any other host
gets `worker/position among hosts[1:]`. -/
theorem build_tf_config_for_ps_multi_host
    (h0 h1 : String) (t : List String) (current : String)
    (hnd : (h0 :: h1 :: t).Nodup) (hc : current ∈ h0 :: h1 :: t) :
    ∃ cfgPs cfgNonPs : TfConfig,
      build_tf_config_for_ps (h0 :: h1 :: t) current true = Except.ok cfgPs ∧
      build_tf_config_for_ps (h0 :: h1 :: t) current false = Except.ok cfgNonPs ∧
      cfgPs.cluster = cfgNonPs.cluster ∧
      cfgNonPs.cluster.master = some [h0 ++ ":2222"] ∧
      cfgNonPs.cluster.worker = some ((h1 :: t).map (fun h => h ++ ":2222")) ∧
      cfgNonPs.cluster.ps = some ((h0 :: h1 :: t).map (fun h => h ++ ":2223")) ∧
      cfgPs.task = { type := "ps", index := (h0 :: h1 :: t).indexOf current } ∧
      (h0 :: h1 :: t)[(h0 :: h1 :: t).indexOf current]? = some current ∧
      (current = h0 → cfgNonPs.task = { type := "master", index := 0 }) ∧
      (current ≠ h0 →
        cfgNonPs.task = { type := "worker", index := (h1 :: t).indexOf current } ∧
        (h1 :: t)[(h1 :: t).indexOf current]? = some current) := by
  have hidx := listIndex_eq_indexOf_of_mem hc
  by_cases hcur : current = h0
  · subst hcur
    refine ⟨⟨⟨some [current ++ ":2222"], some ((current :: h1 :: t).map (fun h => h ++ ":2223")),
        some ((h1 :: t).map (fun h => h ++ ":2222"))⟩, "cloud",
        ⟨"ps", (current :: h1 :: t).indexOf current⟩⟩,
      ⟨⟨some [current ++ ":2222"], some ((current :: h1 :: t).map (fun h => h ++ ":2223")),
        some ((h1 :: t).map (fun h => h ++ ":2222"))⟩, "cloud", ⟨"master", 0⟩⟩,
      ?_, ?_, rfl, rfl, rfl, rfl, rfl, getElem?_indexOf_of_mem hc,
      fun _ => rfl, fun hne => absurd rfl hne⟩ <;>
    simp [build_tf_config_for_ps, host_addresses, is_host_master, hidx, Except.map,
      append_port_2222, append_port_2223]
  · have hmem1 : current ∈ h1 :: t := by
      rcases List.mem_cons.mp hc with he | hm
      · exact absurd he hcur
      · exact hm
    have hidx1 := listIndex_eq_indexOf_of_mem hmem1
    have hne : (h0 == current) = false := by
      simp only [beq_eq_false_iff_ne, ne_eq]
      exact fun he => hcur he.symm
    refine ⟨⟨⟨some [h0 ++ ":2222"], some ((h0 :: h1 :: t).map (fun h => h ++ ":2223")),
        some ((h1 :: t).map (fun h => h ++ ":2222"))⟩, "cloud",
        ⟨"ps", (h0 :: h1 :: t).indexOf current⟩⟩,
      ⟨⟨some [h0 ++ ":2222"], some ((h0 :: h1 :: t).map (fun h => h ++ ":2223")),
        some ((h1 :: t).map (fun h => h ++ ":2222"))⟩, "cloud",
        ⟨"worker", (h1 :: t).indexOf current⟩⟩,
      ?_, ?_, rfl, rfl, rfl, rfl, rfl, getElem?_indexOf_of_mem hc,
      fun he => absurd he hcur,
      fun _ => ⟨rfl, getElem?_indexOf_of_mem hmem1⟩⟩ <;>
    simp [build_tf_config_for_ps, host_addresses, is_host_master, hidx, hidx1, hne, Except.map,
      append_port_2222, append_port_2223]

/-- Witness for C1: hosts `["a","b","c"]`, current host `"b"` — in
particular the non-ps task is `worker/0`. -/
theorem build_tf_config_for_ps_multi_host_witness :
    ∃ cfgPs cfgNonPs : TfConfig,
      build_tf_config_for_ps ["a", "b", "c"] "b" true = Except.ok cfgPs ∧
      build_tf_config_for_ps ["a", "b", "c"] "b" false = Except.ok cfgNonPs ∧
      cfgPs.cluster = cfgNonPs.cluster ∧
      cfgNonPs.cluster.master = some ["a:2222"] ∧
      cfgNonPs.cluster.worker = some (["b", "c"].map (fun h => h ++ ":2222")) ∧
      cfgNonPs.cluster.ps = some (["a", "b", "c"].map (fun h => h ++ ":2223")) ∧
      cfgPs.task = { type := "ps", index := (["a", "b", "c"] : List String).indexOf "b" } ∧
      (["a", "b", "c"] : List String)[(["a", "b", "c"] : List String).indexOf "b"]? = some "b" ∧
      ("b" = "a" → cfgNonPs.task = { type := "master", index := 0 }) ∧
      ("b" ≠ "a" →
        cfgNonPs.task = { type := "worker", index := (["b", "c"] : List String).indexOf "b" } ∧
        (["b", "c"] : List String)[(["b", "c"] : List String).indexOf "b"]? = some "b") :=
  build_tf_config_for_ps_multi_host "a" "b" ["c"] "b" (by decide) (by decide)

/-- C2: for a single-element host list, `ps_task=True` raises the
configuration `ValueError` (no topology is returned and nothing is
launched — the builder is pure), while `ps_task=False` for that host
succeeds with `task = {"type": "master", "index": 0}`. -/
theorem build_tf_config_for_ps_single_host (h : String) :
    build_tf_config_for_ps [h] h true =
      Except.error "Cannot have a ps task if there are no parameter servers in the cluster" ∧
    ∃ cfg : TfConfig, build_tf_config_for_ps [h] h false = Except.ok cfg ∧
      cfg.task = { type := "master", index := 0 } := by
  refine ⟨?_, ⟨⟨some [h ++ ":2222"], none, none⟩, "cloud", ⟨"master", 0⟩⟩, ?_, rfl⟩ <;>
  simp [build_tf_config_for_ps, host_addresses, is_host_master, Except.map, append_port_2222]

/-- C10: for a single-element host list with `ps_task=False`, the returned
cluster has only the `master` role — the `worker` and `ps` keys are both
absent. -/
theorem build_tf_config_for_ps_single_host_cluster (h : String) :
    ∃ cfg : TfConfig, build_tf_config_for_ps [h] h false = Except.ok cfg ∧
      cfg.cluster.master = some [h ++ ":2222"] ∧
      cfg.cluster.worker = none ∧
      cfg.cluster.ps = none := by
  refine ⟨⟨⟨some [h ++ ":2222"], none, none⟩, "cloud", ⟨"master", 0⟩⟩, ?_, rfl, rfl, rfl⟩
  simp [build_tf_config_for_ps, host_addresses, is_host_master, Except.map, append_port_2222]

/-- C3: for a non-empty host list and a current host in it,
`_build_tf_config_for_mwms` puts all hosts (and only them) under `worker`
in order, suffixed `":8890"`, with no `master`/`ps` roles, and the task is
`worker` at the current host's position in the full host list. -/
theorem build_tf_config_for_mwms_spec (h0 : String) (t : List String) (current : String)
    (hc : current ∈ h0 :: t) :
    ∃ cfg : TfConfig,
      build_tf_config_for_mwms (h0 :: t) current = Except.ok cfg ∧
      cfg.cluster.worker = some ((h0 :: t).map (fun h => h ++ ":8890")) ∧
      cfg.cluster.master = none ∧
      cfg.cluster.ps = none ∧
      cfg.task = { type := "worker", index := (h0 :: t).indexOf current } ∧
      (h0 :: t)[(h0 :: t).indexOf current]? = some current := by
  refine ⟨⟨⟨none, none, some ((h0 :: t).map (fun h => h ++ ":8890"))⟩, "cloud",
      ⟨"worker", (h0 :: t).indexOf current⟩⟩,
    ?_, rfl, rfl, rfl, rfl, getElem?_indexOf_of_mem hc⟩
  simp [build_tf_config_for_mwms, host_addresses, listIndex_eq_indexOf_of_mem hc, Except.map,
    append_port_8890]

/-- Witness for C3: hosts `["a","b"]`, current host `"b"` — worker list
`["a:8890","b:8890"]` and task index 1. -/
theorem build_tf_config_for_mwms_spec_witness :
    ∃ cfg : TfConfig,
      build_tf_config_for_mwms ["a", "b"] "b" = Except.ok cfg ∧
      cfg.cluster.worker = some (["a", "b"].map (fun h => h ++ ":8890")) ∧
      cfg.cluster.master = none ∧
      cfg.cluster.ps = none ∧
      cfg.task = { type := "worker", index := (["a", "b"] : List String).indexOf "b" } ∧
      (["a", "b"] : List String)[(["a", "b"] : List String).indexOf "b"]? = some "b" :=
  build_tf_config_for_mwms_spec "a" ["b"] "b" (by decide)

/-- When probes `k..k+N-1` succeed and probe `k+N` fails, the wait loop
returns the trace `waitTraceFrom k N` for any sufficient fuel. -/
theorem wait_eq_some_of_first_failure (up : Nat → Bool) (N : Nat) :
    ∀ k fuel, N < fuel → (∀ i, i < N → up (k + i) = true) → up (k + N) = false →
    wait_until_master_is_down up fuel k = some (waitTraceFrom k N) := by
  induction N with
  | zero =>
    intro k fuel hfuel hup hdown
    match fuel, hfuel with
    | f + 1, _ =>
      rw [wait_until_master_is_down]
      simp only [Nat.add_zero] at hdown
      simp [hdown, waitTraceFrom]
  | succ n ih =>
    intro k fuel hfuel hup hdown
    match fuel, hfuel with
    | f + 1, hfuel =>
      have hk : up k = true := by simpa using hup 0 (Nat.succ_pos n)
      have hrec : wait_until_master_is_down up f (k + 1) = some (waitTraceFrom (k + 1) n) := by
        refine ih (k + 1) f (by omega) (fun i hi => ?_) ?_
        · have h1 : k + 1 + i = k + (i + 1) := by omega
          rw [h1]
          exact hup (i + 1) (by omega)
        · have h2 : k + 1 + n = k + (n + 1) := by omega
          rw [h2]
          exact hdown
      rw [wait_until_master_is_down]
      simp [hk, hrec, waitTraceFrom]

/-- When every probe succeeds the wait loop never returns: it exhausts any
amount of fuel. -/
theorem wait_none_of_all_up (up : Nat → Bool) (h : ∀ i, up i = true) :
    ∀ fuel k, wait_until_master_is_down up fuel k = none := by
  intro fuel
  induction fuel with
  | zero => intro k; rfl
  | succ f ih =>
    intro k
    rw [wait_until_master_is_down]
    simp [h k, ih (k + 1)]

/-- The trace of a run with `N` successful probes contains exactly `N`
`time.sleep(10)` events. -/
theorem waitTraceFrom_countP_sleep (N : Nat) :
    ∀ k, (waitTraceFrom k N).countP isSleepEvent = N := by
  induction N with
  | zero => intro k; simp [waitTraceFrom, isSleepEvent, List.countP_cons]
  | succ n ih =>
    intro k
    simp [waitTraceFrom, List.countP_cons, isSleepEvent, ih (k + 1)]

/-- A wait trace is never empty. -/
theorem waitTraceFrom_ne_nil (N k : Nat) : waitTraceFrom k N ≠ [] := by
  cases N <;> simp [waitTraceFrom]

/-- A wait trace ends with the failing probe. -/
theorem waitTraceFrom_getLast (N : Nat) :
    ∀ k, (waitTraceFrom k N).getLast? = some (WaitEvent.probe (k + N) false) := by
  induction N with
  | zero => intro k; simp [waitTraceFrom]
  | succ n ih =>
    intro k
    have h1 : k + 1 + n = k + (n + 1) := by omega
    have h2 : (WaitEvent.sleep10 :: waitTraceFrom (k + 1) n).getLast? =
        (waitTraceFrom (k + 1) n).getLast? := by
      cases hw : waitTraceFrom (k + 1) n with
      | nil => exact absurd hw (waitTraceFrom_ne_nil n (k + 1))
      | cons b l => rw [List.getLast?_cons_cons]
    simp [waitTraceFrom, List.getLast?_cons_cons, h2, ← h1, ih (k + 1)]

/-- C6: modelling the liveness probe as a sequence of results,
`_wait_until_master_is_down` returns exactly at the first failed probe:
when the first `N` probes succeed and the next one fails, the loop runs
`N` iterations each ending in a 10-second sleep and returns on the failing
probe (for any fuel larger than `N`, so within one polling interval of the
master going down); when every probe succeeds it never returns. -/
theorem wait_until_master_is_down_spec (up : Nat → Bool) (N : Nat)
    (hup : ∀ i, i < N → up i = true) (hdown : up N = false) :
    (∀ fuel, N < fuel → wait_until_master_is_down up fuel 0 = some (waitTraceFrom 0 N)) ∧
    (waitTraceFrom 0 N).countP isSleepEvent = N ∧
    (waitTraceFrom 0 N).getLast? = some (WaitEvent.probe N false) ∧
    (∀ up2 : Nat → Bool, (∀ i, up2 i = true) →
      ∀ fuel k, wait_until_master_is_down up2 fuel k = none) := by
  refine ⟨fun fuel hfuel => ?_, waitTraceFrom_countP_sleep N 0, ?_,
    fun up2 h2 => wait_none_of_all_up up2 h2⟩
  · exact wait_eq_some_of_first_failure up N 0 fuel hfuel
      (fun i hi => by simpa using hup i hi) (by simpa using hdown)
  · simpa using waitTraceFrom_getLast N 0

/-- Witness for C6: a master that answers the first two probes and then
goes down — the loop sleeps twice and returns on probe 2. -/
theorem wait_until_master_is_down_spec_witness :
    wait_until_master_is_down (fun i => decide (i < 2)) 3 0 = some (waitTraceFrom 0 2) ∧
    (waitTraceFrom 0 2).countP isSleepEvent = 2 ∧
    (waitTraceFrom 0 2).getLast? = some (WaitEvent.probe 2 false) := by
  have h := wait_until_master_is_down_spec (fun i => decide (i < 2)) 2 (by decide) (by decide)
  exact ⟨h.1 3 (by decide), h.2.1, h.2.2.1⟩

/-- Shape of any successful run of `train` when the parameter-server
strategy is selected: parameter server, then worker, then (on a non-master
host only) the wait loop. -/
theorem train_ps_run_shape (env : Env)
    (hflag : env.parameter_server_flag = true) (hlen : 1 < env.hosts.length)
    (tr : List Event) (h : train env = Except.ok tr) :
    ∃ cfg : TfConfig,
      tr = Event.runPs cfg.cluster :: Event.runWorker cfg ::
        (if is_host_master env.hosts env.current_host then []
         else [Event.waitUntilMasterIsDown (env.hosts.headD "")]) := by
  have hd : decide (1 < env.hosts.length) = true := decide_eq_true hlen
  by_cases hg : env.current_instance_group ∈ env.distribution_instance_groups
  · cases hb : build_tf_config_for_ps env.distribution_hosts env.current_host false with
    | ok cfg =>
      refine ⟨cfg, ?_⟩
      simp [train, hflag, hd, hg, hb] at h
      simpa using h.symm
    | error m =>
      simp [train, hflag, hd, hg, hb] at h
  · simp [train, hflag, hd, hg] at h

/-- C5: in the parameter-server branch of `train`, every successful run
launches the parameter server strictly before the worker, and enters the
wait-for-master loop (probing `env.hosts[0]`) only after the worker run
returns and only when the current host is not the first host — never on the
master host. -/
theorem train_ps_branch_order (env : Env)
    (hflag : env.parameter_server_flag = true) (hlen : 1 < env.hosts.length)
    (tr : List Event) (h : train env = Except.ok tr) :
    ∃ cfg : TfConfig,
      tr = Event.runPs cfg.cluster :: Event.runWorker cfg ::
        (if is_host_master env.hosts env.current_host then []
         else [Event.waitUntilMasterIsDown (env.hosts.headD "")]) :=
  train_ps_run_shape env hflag hlen tr h

/-- C9: when the parameter-server flag is set and there is more than one
host but the current instance group is not among the distribution instance
groups, the setup phase skips building the topology while the run phase
still takes the parameter-server branch and reads `tf_config` — `train`
fails with the unbound-local error, producing no trace (Python evaluates
`tf_config["cluster"]` before calling `_run_ps`, so no process is
launched). -/
theorem train_unbound_local (env : Env)
    (hflag : env.parameter_server_flag = true) (hlen : 1 < env.hosts.length)
    (hgroup : env.current_instance_group ∉ env.distribution_instance_groups) :
    train env = Except.error TrainError.unboundLocalError := by
  have hd : decide (1 < env.hosts.length) = true := decide_eq_true hlen
  simp [train, hflag, hd, hgroup]

/-- Shape of any successful run of `train` when the parameter-server
strategy is not selected: exactly one entry-point invocation, with the
runner variant selected from the MPI and data-parallel flags. -/
theorem train_entry_point_shape (env : Env)
    (h : (env.parameter_server_flag && decide (1 < env.hosts.length)) = false)
    (tr : List Event) (htr : train env = Except.ok tr) :
    ∃ c : Option TfConfig, tr = [Event.runEntryPoint
      (if env.current_instance_group ∈ env.distribution_instance_groups then
        (if env.mpi_flag then RunnerType.mpi
         else if env.dataparallel_flag then RunnerType.smdataparallel
         else RunnerType.process)
       else RunnerType.process) c] := by
  by_cases hg : env.current_instance_group ∈ env.distribution_instance_groups
  · by_cases hm : env.mwms_flag = true
    · cases hb : build_tf_config_for_mwms env.distribution_hosts env.current_host with
      | ok cfg =>
        refine ⟨some cfg, ?_⟩
        simp [train, h, hg, hm, hb] at htr
        simp [hg, htr.symm]
      | error m =>
        simp [train, h, hg, hm, hb] at htr
    · refine ⟨none, ?_⟩
      simp [train, h, hg, hm] at htr
      simp [hg, htr.symm]
  · refine ⟨none, ?_⟩
    simp [train, h, hg] at htr
    simp [hg, htr.symm]

/-- C7: in the non-parameter-server branch of `train`, the entry point is
invoked exactly once, with the MPI runner when the MPI flag is set, the
data-parallel runner when the data-parallel flag is set and the MPI flag is
not, and the default process runner otherwise (including when the current
instance group does not participate in distributed training). -/
theorem train_non_ps_runner (env : Env)
    (h : (env.parameter_server_flag && decide (1 < env.hosts.length)) = false)
    (tr : List Event) (htr : train env = Except.ok tr) :
    ∃ c : Option TfConfig, tr = [Event.runEntryPoint
      (if env.current_instance_group ∈ env.distribution_instance_groups then
        (if env.mpi_flag then RunnerType.mpi
         else if env.dataparallel_flag then RunnerType.smdataparallel
         else RunnerType.process)
       else RunnerType.process) c] :=
  train_entry_point_shape env h tr htr

/-- C4: the parameter-server strategy is active (a parameter server is
launched) in a successful run of `train` exactly when the
parameter-server flag is set and there is more than one host; and when both
the parameter-server and multi-worker-mirrored flags are set with more than
one host (and the current group participates and the topology builds), the
parameter-server path is taken: the parameter-server topology is launched
and no entry-point invocation — hence no multi-worker-mirrored TF_CONFIG
injection — occurs. -/
theorem train_ps_precedence (env : Env) :
    (∀ tr, train env = Except.ok tr →
      ((∃ cl, Event.runPs cl ∈ tr) ↔
        (env.parameter_server_flag && decide (1 < env.hosts.length)) = true)) ∧
    ((env.parameter_server_flag && decide (1 < env.hosts.length)) = true →
      env.mwms_flag = true →
      env.current_instance_group ∈ env.distribution_instance_groups →
      ∀ cfg, build_tf_config_for_ps env.distribution_hosts env.current_host false =
          Except.ok cfg →
        train env = Except.ok (Event.runPs cfg.cluster :: Event.runWorker cfg ::
          (if is_host_master env.hosts env.current_host then []
           else [Event.waitUntilMasterIsDown (env.hosts.headD "")])) ∧
        (∀ rt c, Event.runEntryPoint rt c ∉ (Event.runPs cfg.cluster :: Event.runWorker cfg ::
          (if is_host_master env.hosts env.current_host then []
           else [Event.waitUntilMasterIsDown (env.hosts.headD "")])))) := by
  constructor
  · intro tr htr
    by_cases hps : (env.parameter_server_flag && decide (1 < env.hosts.length)) = true
    · have hflag : env.parameter_server_flag = true := by
        cases henv : env.parameter_server_flag <;> simp [henv] at hps ⊢
      have hlen : 1 < env.hosts.length := by
        have h2 := hps
        simp [hflag] at h2
        exact h2
      obtain ⟨cfg, hcfg⟩ := train_ps_run_shape env hflag hlen tr htr
      simp only [hps, iff_true]
      exact ⟨cfg.cluster, by simp [hcfg]⟩
    · have hfe := eq_false_of_ne_true hps
      obtain ⟨c, hc⟩ := train_entry_point_shape env hfe tr htr
      have hno : ¬∃ cl, Event.runPs cl ∈ tr := by
        rintro ⟨cl, hmem⟩
        rw [hc] at hmem
        simp at hmem
      exact iff_of_false hno hps
  · intro hps hm hg cfg hb
    have hflag : env.parameter_server_flag = true := by
      cases henv : env.parameter_server_flag <;> simp [henv] at hps ⊢
    have hd : decide (1 < env.hosts.length) = true := by
      simp [hflag] at hps
      exact decide_eq_true hps
    constructor
    · simp [train, hflag, hd, hg, hb]
    · intro rt c
      by_cases hmaster : is_host_master env.hosts env.current_host = true <;>
        simp [hmaster]

/-- Witness for C5: on `envPsMwms` the trace is parameter server, then
worker, then the wait loop probing `"algo-1"`. -/
theorem train_ps_branch_order_witness :
    ∃ cfg : TfConfig,
      (Event.runPs cfgPsExample.cluster :: Event.runWorker cfgPsExample ::
        (if is_host_master envPsMwms.hosts envPsMwms.current_host then []
         else [Event.waitUntilMasterIsDown (envPsMwms.hosts.headD "")])) =
      Event.runPs cfg.cluster :: Event.runWorker cfg ::
        (if is_host_master envPsMwms.hosts envPsMwms.current_host then []
         else [Event.waitUntilMasterIsDown (envPsMwms.hosts.headD "")]) :=
  train_ps_branch_order envPsMwms rfl (by decide) _ (by rfl)

/-- Witness for C9: on `envPsNoGroup`, `train` fails with the unbound-local
error. -/
theorem train_unbound_local_witness :
    train envPsNoGroup = Except.error TrainError.unboundLocalError :=
  train_unbound_local envPsNoGroup rfl (by decide) (by decide)

/-- Witness for C7: on `envMpi` the single entry-point invocation uses the
MPI runner. -/
theorem train_non_ps_runner_witness :
    ∃ c : Option TfConfig,
      [Event.runEntryPoint RunnerType.mpi none] = [Event.runEntryPoint
        (if envMpi.current_instance_group ∈ envMpi.distribution_instance_groups then
          (if envMpi.mpi_flag then RunnerType.mpi
           else if envMpi.dataparallel_flag then RunnerType.smdataparallel
           else RunnerType.process)
         else RunnerType.process) c] :=
  train_non_ps_runner envMpi (by decide) [Event.runEntryPoint RunnerType.mpi none] (by rfl)

/-- Witness for C4: on `envPsMwms` (both flags set, two hosts) the
parameter-server path is taken and no entry-point invocation occurs. -/
theorem train_ps_precedence_witness :
    train envPsMwms = Except.ok (Event.runPs cfgPsExample.cluster ::
      Event.runWorker cfgPsExample ::
      (if is_host_master envPsMwms.hosts envPsMwms.current_host then []
       else [Event.waitUntilMasterIsDown (envPsMwms.hosts.headD "")])) ∧
    (∀ rt c, Event.runEntryPoint rt c ∉ (Event.runPs cfgPsExample.cluster ::
      Event.runWorker cfgPsExample ::
      (if is_host_master envPsMwms.hosts envPsMwms.current_host then []
       else [Event.waitUntilMasterIsDown (envPsMwms.hosts.headD "")]))) :=
  (train_ps_precedence envPsMwms).2 (by decide) rfl (by decide) cfgPsExample (by rfl)

/-- Unfolding lemma: `_log_model_missing_warning` is the per-entry `notServable` warnings in
walk order followed by the post-walk warning, if any. -/
theorem log_model_missing_warning_eq (walk : List WalkEntry) :
    log_model_missing_warning walk = (walk.map entryWarnings).flatten ++
      (if !walk.any (fun e => !e.filenames.isEmpty) then [ModelWarning.noModelArtifact]
       else if !walk.any (fun e => e.filenames.any isSavedModelFile) then
         [ModelWarning.wrongStructure]
       else []) := rfl

/-- Membership in one entry's warnings: a saved-model file under a
non-digit direct parent. -/
theorem mem_entryWarnings {e : WalkEntry} {w : ModelWarning} :
    w ∈ entryWarnings e ↔
      ∃ f ∈ e.filenames, isSavedModelFile f = true ∧
        str_isdigit (direct_parent_dir e) = false ∧
        w = ModelWarning.notServable (direct_parent_dir e) := by
  simp only [entryWarnings, List.mem_filterMap]
  constructor
  · rintro ⟨f, hf, hsome⟩
    refine ⟨f, hf, ?_⟩
    by_cases hs : isSavedModelFile f = true
    · by_cases hd : str_isdigit (direct_parent_dir e) = true
      · simp [hs, hd] at hsome
      · have hd' : str_isdigit (direct_parent_dir e) = false := by
          cases h : str_isdigit (direct_parent_dir e)
          · rfl
          · exact absurd h hd
        simp [hs, hd'] at hsome
        exact ⟨hs, hd', hsome.symm⟩
    · simp [hs] at hsome
  · rintro ⟨f, hf, hs, hd, hw⟩
    exact ⟨f, hf, by simp [hs, hd, hw]⟩

/-- One entry emits as many `notServable` warnings as it has saved-model
files, when its direct parent is not all digits, and none otherwise. -/
theorem countP_entryWarnings (e : WalkEntry) :
    (entryWarnings e).countP isNotServable =
      (if str_isdigit (direct_parent_dir e) then 0
       else e.filenames.countP isSavedModelFile) := by
  unfold entryWarnings
  induction e.filenames with
  | nil => by_cases hd : str_isdigit (direct_parent_dir e) = true <;> simp [hd]
  | cons f t ih =>
    by_cases hs : isSavedModelFile f = true <;>
      by_cases hd : str_isdigit (direct_parent_dir e) = true <;>
        simp_all [List.countP_cons, isNotServable]

/-- C8: over the modelled file tree, `_log_model_missing_warning` emits the
no-model-artifact warning exactly when no entry lists any file; emits a
not-servable warning exactly for (and one per) saved-model file whose
direct parent directory name is not all digits; and emits no warning at all
when saved-model files exist and all sit under all-digit parents.  The
function is total (it only returns a warning list, never an error). -/
theorem log_model_missing_warning_spec (walk : List WalkEntry) :
    (ModelWarning.noModelArtifact ∈ log_model_missing_warning walk ↔
      ∀ e ∈ walk, e.filenames = []) ∧
    (∀ d, ModelWarning.notServable d ∈ log_model_missing_warning walk ↔
      ∃ e ∈ walk, direct_parent_dir e = d ∧ str_isdigit d = false ∧
        ∃ f ∈ e.filenames, isSavedModelFile f = true) ∧
    ((log_model_missing_warning walk).countP isNotServable =
      (walk.map (fun e => if str_isdigit (direct_parent_dir e) then 0
        else e.filenames.countP isSavedModelFile)).sum) ∧
    ((∃ e ∈ walk, ∃ f ∈ e.filenames, isSavedModelFile f = true) →
     (∀ e ∈ walk, ∀ f ∈ e.filenames, isSavedModelFile f = true →
        str_isdigit (direct_parent_dir e) = true) →
     log_model_missing_warning walk = []) := by
  have hdur : ∀ w ∈ (walk.map entryWarnings).flatten,
      ∃ e ∈ walk, ∃ f ∈ e.filenames, isSavedModelFile f = true ∧
        str_isdigit (direct_parent_dir e) = false ∧
        w = ModelWarning.notServable (direct_parent_dir e) := by
    intro w hw
    rw [List.mem_flatten] at hw
    obtain ⟨l, hl, hwl⟩ := hw
    rw [List.mem_map] at hl
    obtain ⟨e, he, rfl⟩ := hl
    obtain ⟨f, hf, hs, hd, hww⟩ := mem_entryWarnings.mp hwl
    exact ⟨e, he, f, hf, hs, hd, hww⟩
  refine ⟨?_, ?_, ?_, ?_⟩
  · rw [log_model_missing_warning_eq, List.mem_append]
    have hnomem : ModelWarning.noModelArtifact ∉ (walk.map entryWarnings).flatten := by
      intro hmem
      obtain ⟨e, he, f, hf, hs, hd, hww⟩ := hdur _ hmem
      simp at hww
    by_cases hfe : walk.any (fun e => !e.filenames.isEmpty) = true
    · have hne : ∃ e ∈ walk, e.filenames ≠ [] := by
        obtain ⟨e, he, hb⟩ := List.any_eq_true.mp hfe
        refine ⟨e, he, fun hnil => ?_⟩
        simp [hnil] at hb
      constructor
      · rintro (h | h)
        · exact absurd h hnomem
        · rw [hfe] at h
          by_cases hpb : walk.any (fun e => e.filenames.any isSavedModelFile) = true <;>
            simp [hpb] at h
      · intro hall
        obtain ⟨e, he, hnil⟩ := hne
        exact absurd (hall e he) hnil
    · have hfe' : walk.any (fun e => !e.filenames.isEmpty) = false := eq_false_of_ne_true hfe
      constructor
      · intro _ e he
        have := List.any_eq_false.mp hfe' e he
        simpa using this
      · intro _
        right
        simp [hfe']
  · intro d
    rw [log_model_missing_warning_eq, List.mem_append]
    have htail : ModelWarning.notServable d ∉
        (if !walk.any (fun e => !e.filenames.isEmpty) then [ModelWarning.noModelArtifact]
         else if !walk.any (fun e => e.filenames.any isSavedModelFile) then
           [ModelWarning.wrongStructure]
         else []) := by
      by_cases h1 : walk.any (fun e => !e.filenames.isEmpty) = true <;>
        by_cases h2 : walk.any (fun e => e.filenames.any isSavedModelFile) = true <;>
          simp [h1, h2]
    constructor
    · rintro (h | h)
      · obtain ⟨e, he, f, hf, hs, hd, hww⟩ := hdur _ h
        have hdd : direct_parent_dir e = d := by
          cases hww
          rfl
        subst hdd
        exact ⟨e, he, rfl, hd, f, hf, hs⟩
      · exact absurd h htail
    · rintro ⟨e, he, hdd, hdig, f, hf, hs⟩
      left
      rw [List.mem_flatten]
      refine ⟨entryWarnings e, List.mem_map.mpr ⟨e, he, rfl⟩, ?_⟩
      rw [mem_entryWarnings]
      exact ⟨f, hf, hs, by rw [hdd]; exact hdig, by rw [hdd]⟩
  · rw [log_model_missing_warning_eq, List.countP_append, List.countP_flatten, List.map_map]
    have hmap : (List.countP isNotServable ∘ entryWarnings) = fun e =>
        if str_isdigit (direct_parent_dir e) then 0
        else e.filenames.countP isSavedModelFile := by
      funext e
      exact countP_entryWarnings e
    have htail : (if !walk.any (fun e => !e.filenames.isEmpty) then
          [ModelWarning.noModelArtifact]
        else if !walk.any (fun e => e.filenames.any isSavedModelFile) then
          [ModelWarning.wrongStructure]
        else []).countP isNotServable = 0 := by
      by_cases h1 : walk.any (fun e => !e.filenames.isEmpty) = true <;>
        by_cases h2 : walk.any (fun e => e.filenames.any isSavedModelFile) = true <;>
          simp [h1, h2, List.countP_cons, isNotServable]
    rw [hmap, htail]
    exact Nat.add_zero _
  · intro hpb hdig
    rw [log_model_missing_warning_eq]
    have h1 : (walk.map entryWarnings).flatten = [] := by
      rw [List.flatten_eq_nil_iff]
      intro l hl
      rw [List.mem_map] at hl
      obtain ⟨e, he, rfl⟩ := hl
      rw [entryWarnings, List.filterMap_eq_nil_iff]
      intro f hf
      by_cases hs : isSavedModelFile f = true
      · simp [hs, hdig e he f hf hs]
      · simp [eq_false_of_ne_true hs]
    have hfe : walk.any (fun e => !e.filenames.isEmpty) = true := by
      obtain ⟨e, he, f, hf, _⟩ := hpb
      refine List.any_eq_true.mpr ⟨e, he, ?_⟩
      simp only [Bool.not_eq_true', List.isEmpty_eq_false_iff_exists_mem]
      exact ⟨f, hf⟩
    have hpbe : walk.any (fun e => e.filenames.any isSavedModelFile) = true := by
      obtain ⟨e, he, f, hf, hs⟩ := hpb
      exact List.any_eq_true.mpr ⟨e, he, List.any_eq_true.mpr ⟨f, hf, hs⟩⟩
    simp [h1, hfe, hpbe]

/-- Witness for C8: a `saved_model.pb` under the all-digit directory `"12"`
produces no warning. -/
theorem log_model_missing_warning_spec_witness :
    log_model_missing_warning
      [⟨["opt", "ml", "model", "export", "Servo", "12"], ["saved_model.pb"]⟩] = [] :=
  (log_model_missing_warning_spec
    [⟨["opt", "ml", "model", "export", "Servo", "12"], ["saved_model.pb"]⟩]).2.2.2
    (by decide) (by decide)

end SageMakerTF
